import Mathlib

/-!
Verification of the AutoMod cog (`src/cogs/automod.py`) of the Kurisu bot.

The Python source is shallowly embedded: Discord objects become plain Lean
structures, the mutable trigger lists become `List String` carried through
explicit state, and the remote Rule Store and the kick actuator are modelled
as parameters describing the remote outcome.  Every definition in the
`Kurisu` namespace is translated from the source file, branch by branch.
-/

namespace Kurisu

/-- The trigger kinds of `discord.AutoModRuleTriggerType`; only `keyword`
is handled specially by the cog. -/
inductive AutoModRuleTriggerType where
  | keyword
  | spam
  | mention_spam
  | keyword_preset
  | member_profile
deriving DecidableEq, Repr

/-- The trigger of an automod rule: its kind and the two keyword lists
(`keyword_filter` holds literal keywords, `regex_patterns` holds regexes). -/
structure AutoModTrigger where
  type : AutoModRuleTriggerType
  keyword_filter : List String
  regex_patterns : List String
deriving DecidableEq, Repr

/-- An automod rule as the cog sees it: id, name and trigger. -/
structure AutoModRule where
  id : Nat
  name : String
  trigger : AutoModTrigger
deriving DecidableEq, Repr

/-- `leadsChars p l` is true when `p` is an initial segment of `l`. -/
def leadsChars : List Char → List Char → Bool
  | [], _ => true
  | _ :: _, [] => false
  | a :: as, b :: bs => a == b && leadsChars as bs

/-- `hasSubChars q l` is true when `q` occurs contiguously inside `l`. -/
def hasSubChars (q : List Char) : List Char → Bool
  | [] => q.isEmpty
  | c :: rest => leadsChars q (c :: rest) || hasSubChars q rest

/-- Python's `q in s` on strings: `q` is a contiguous, case-sensitive
substring of `s`. -/
def strIn (q s : String) : Bool :=
  hasSubChars q.toList s.toList

/-- An `app_commands.Choice` produced by the autocomplete callback. -/
structure Choice where
  name : String
  value : String
deriving DecidableEq, Repr

/-- Embedding of `rules_autocomplete`: the fetched rule snapshot is passed
in, and the interaction is dropped.  When `current` is non-empty (Python
truthiness of a string) the keyword-typed rules whose name contains
`current` are returned; otherwise all keyword-typed rules are. -/
def rules_autocomplete (rules : List AutoModRule) (current : String) : List Choice :=
  if current ≠ "" then
    (rules.filter fun rule =>
        rule.trigger.type == AutoModRuleTriggerType.keyword && strIn current rule.name).map
      (fun rule => ⟨rule.name, toString rule.id⟩)
  else
    (rules.filter fun rule => rule.trigger.type == AutoModRuleTriggerType.keyword).map
      (fun rule => ⟨rule.name, toString rule.id⟩)

/-- The distinguishable outcomes of `add_keyword` / `delete_keyword`: each
constructor corresponds to one `interaction.response.send_message` call of
the source, the string argument carrying the interpolated message. -/
inductive EditOutcome where
  | success (message : String)
  | wrongTriggerType (message : String)
  | duplicateEntry (message : String)
  | entryNotFound (message : String)
  | remoteRejected (message : String)
deriving DecidableEq, Repr

/-- The observable result of an edit command: the outcome reported to the
invoker, the final in-memory state of the (mutated) rule object, and the
list of trigger payloads submitted to the Rule Store via `rule.edit`. -/
structure EditResult where
  outcome : EditOutcome
  rule : AutoModRule
  storeCalls : List AutoModTrigger
deriving DecidableEq, Repr

/-- Embedding of `AutoMod.add_keyword`.  `remote = none` means the store
accepts the `rule.edit` call; `remote = some e` means it raises an
`HTTPException` rendered as `e`.  The mutation of `rule.trigger` (the
Python `append`) happens before the edit call and, as in the source, is
not undone when the store rejects the edit. -/
def add_keyword (rule : AutoModRule) (keyword : String) (regex : Bool)
    (remote : Option String) : EditResult :=
  if rule.trigger.type ≠ AutoModRuleTriggerType.keyword then
    { outcome := .wrongTriggerType "This automod rule doesn't have a keyword filter."
      rule := rule, storeCalls := [] }
  else if regex then
    if keyword ∈ rule.trigger.regex_patterns then
      { outcome := .duplicateEntry "This regex expression is already in the filter."
        rule := rule, storeCalls := [] }
    else
      let rule1 := { rule with trigger :=
        { rule.trigger with regex_patterns := rule.trigger.regex_patterns ++ [keyword] } }
      match remote with
      | some e =>
        { outcome := .remoteRejected ("Failed to add keyword: " ++ e ++ ".")
          rule := rule1, storeCalls := [rule1.trigger] }
      | none =>
        { outcome := .success
            ("Added keyword " ++ keyword ++ " to " ++ rule.name ++ " Automod rule succesfully.")
          rule := rule1, storeCalls := [rule1.trigger] }
  else
    if keyword ∈ rule.trigger.keyword_filter then
      { outcome := .duplicateEntry "This keyword is already in the filter."
        rule := rule, storeCalls := [] }
    else
      let rule1 := { rule with trigger :=
        { rule.trigger with keyword_filter := rule.trigger.keyword_filter ++ [keyword] } }
      match remote with
      | some e =>
        { outcome := .remoteRejected ("Failed to add keyword: " ++ e ++ ".")
          rule := rule1, storeCalls := [rule1.trigger] }
      | none =>
        { outcome := .success
            ("Added keyword " ++ keyword ++ " to " ++ rule.name ++ " Automod rule succesfully.")
          rule := rule1, storeCalls := [rule1.trigger] }

/-- Embedding of `AutoMod.delete_keyword`, with the same conventions as
`add_keyword`.  Python's `list.remove` deletes the first occurrence, which
is `List.erase`. -/
def delete_keyword (rule : AutoModRule) (keyword : String) (regex : Bool)
    (remote : Option String) : EditResult :=
  if rule.trigger.type ≠ AutoModRuleTriggerType.keyword then
    { outcome := .wrongTriggerType "This AutoMod rule doesn't have a keyword filter."
      rule := rule, storeCalls := [] }
  else if regex then
    if keyword ∉ rule.trigger.regex_patterns then
      { outcome := .entryNotFound "This regex expression is not in the filter."
        rule := rule, storeCalls := [] }
    else
      let rule1 := { rule with trigger :=
        { rule.trigger with regex_patterns := rule.trigger.regex_patterns.erase keyword } }
      match remote with
      | some e =>
        { outcome := .remoteRejected ("Failed to delete keyword: " ++ e ++ ".")
          rule := rule1, storeCalls := [rule1.trigger] }
      | none =>
        { outcome := .success
            ("Deleted keyword " ++ keyword ++ " from " ++ rule.name ++ " automod rule succesfully.")
          rule := rule1, storeCalls := [rule1.trigger] }
  else
    if keyword ∉ rule.trigger.keyword_filter then
      { outcome := .entryNotFound "This keyword is not in the filter."
        rule := rule, storeCalls := [] }
    else
      let rule1 := { rule with trigger :=
        { rule.trigger with keyword_filter := rule.trigger.keyword_filter.erase keyword } }
      match remote with
      | some e =>
        { outcome := .remoteRejected ("Failed to delete keyword: " ++ e ++ ".")
          rule := rule1, storeCalls := [rule1.trigger] }
      | none =>
        { outcome := .success
            ("Deleted keyword " ++ keyword ++ " from " ++ rule.name ++ " automod rule succesfully.")
          rule := rule1, storeCalls := [rule1.trigger] }

/-- Python dict assignment `m[k] = v` on an insertion-ordered dict: an
existing key keeps its position and gets the new value, a fresh key is
appended at the end. -/
def dictSet (m : List (String × List String)) (k : String) (v : List String) :
    List (String × List String) :=
  match m with
  | [] => [(k, v)]
  | (k0, v0) :: rest => if k0 == k then (k, v) :: rest else (k0, v0) :: dictSet rest k v

/-- Python `m[k].append(x)`: extend the value stored at key `k`. -/
def dictPush (m : List (String × List String)) (k : String) (x : String) :
    List (String × List String) :=
  m.map fun p => if p.1 == k then (p.1, p.2 ++ [x]) else p

/-- The loop state of `search_keyword`: the `matches` dict and the running
`count`. -/
structure SearchState where
  matchMap : List (String × List String)
  count : Nat
deriving DecidableEq, Repr

/-- The body of the inner `for keyword in rule.trigger.keyword_filter`
loop of `search_keyword`: a matching keyword bumps the count and appends
its description to `matches[rule.name]`. -/
def keywordStep (word name : String) (s : SearchState) (kw : String) : SearchState :=
  if strIn word kw then
    { matchMap := dictPush s.matchMap name (kw ++ " contains " ++ word)
      count := s.count + 1 }
  else s

/-- The body of the outer `for rule in rules` loop of `search_keyword`:
non-keyword rules are skipped; a keyword rule first resets
`matches[rule.name]` to `[]`, then scans its literal keywords. -/
def searchStep (word : String) (st : SearchState) (rule : AutoModRule) : SearchState :=
  if rule.trigger.type ≠ AutoModRuleTriggerType.keyword then st
  else
    rule.trigger.keyword_filter.foldl (keywordStep word rule.name)
      { st with matchMap := dictSet st.matchMap rule.name [] }

/-- The state after the outer loop of `search_keyword` has run over the
whole rule snapshot. -/
def searchState (rules : List AutoModRule) (word : String) : SearchState :=
  rules.foldl (searchStep word) ⟨[], 0⟩

/-- The rendering loop of `search_keyword`: `text` is overwritten (not
appended to) by each rule name whose match list is non-empty. -/
def renderText (m : List (String × List String)) : String :=
  m.foldl
    (fun text p =>
      if p.2.isEmpty then text
      else "Rule " ++ p.1 ++ ":\n  " ++ String.intercalate "  \n" p.2)
    ""

/-- What `search_keyword` sends back: either the "No match found." reply,
or the count message together with the content of `matches.txt`. -/
inductive SearchOutput where
  | noMatch
  | found (count : Nat) (text : String)
deriving DecidableEq, Repr

/-- Embedding of `AutoMod.search_keyword` on a fetched rule snapshot: a
zero count yields the "No match found." reply, otherwise the count and
the rendered text are sent. -/
def search_keyword (rules : List AutoModRule) (word : String) : SearchOutput :=
  if (searchState rules word).count = 0 then .noMatch
  else .found (searchState rules word).count (renderText (searchState rules word).matchMap)

/-- A guild member, reduced to the only field the listener uses. -/
structure Member where
  id : Nat
deriving DecidableEq, Repr

/-- One observable side effect of the `on_automod_action` listener. -/
inductive ReactorEvent where
  | logAppend (tag : String)
  | kickCall (memberId : Nat) (reason : String)
deriving DecidableEq, Repr

/-- The run of one `on_automod_action` invocation: the ordered trace of
side effects it performed, the final content of the process-wide
`bot.actions` list, and whether the handler ended by propagating an
exception from the kick. -/
structure ReactorRun where
  trace : List ReactorEvent
  finalActions : List String
  raised : Bool
deriving DecidableEq, Repr

/-- Embedding of `AutoMod.on_automod_action`.  `ruleRes` is the result of
`action.fetch_rule()`, `memberRes` is `action.member`, `actions` is the
current `bot.actions` list, and `kickOk` tells whether the
`member.kick(...)` call succeeds.  The log append is executed before the
kick; a failing kick still happens after the append and is not caught, so
the append is never rolled back. -/
def on_automod_action (ruleRes : Option AutoModRule) (memberRes : Option Member)
    (actions : List String) (kickOk : Bool) : ReactorRun :=
  match ruleRes, memberRes with
  | some rule, some member =>
    if rule.name == "Scams" then
      { trace := [ReactorEvent.logAppend ("wk:" ++ toString member.id),
                  ReactorEvent.kickCall member.id "Suspicious behavior"]
        finalActions := actions ++ ["wk:" ++ toString member.id]
        raised := !kickOk }
    else
      { trace := [], finalActions := actions, raised := false }
  | _, _ => { trace := [], finalActions := actions, raised := false }

/-- The sequence of match descriptions `search_keyword` produces for one
rule: one `"<keyword> contains <word>"` line per matching literal
keyword, in keyword order. -/
def descsOf (word : String) (rule : AutoModRule) : List String :=
  (rule.trigger.keyword_filter.filter fun kw => strIn word kw).map
    fun kw => kw ++ " contains " ++ word

/-- How many matches `search_keyword` counts for one rule: the number of
matching literal keywords of a keyword-typed rule, zero otherwise. -/
def matchCountOf (word : String) (rule : AutoModRule) : Nat :=
  if rule.trigger.type = AutoModRuleTriggerType.keyword then
    (rule.trigger.keyword_filter.filter fun kw => strIn word kw).length
  else 0

/-- The `matches` dict `search_keyword` builds when no two rules share a
name: one entry per keyword-typed rule, in snapshot order. -/
def matchesOf (word : String) (rules : List AutoModRule) : List (String × List String) :=
  (rules.filter fun r => r.trigger.type == AutoModRuleTriggerType.keyword).map
    fun r => (r.name, descsOf word r)

/-- A rule that contributes at least one match: keyword-typed with a
non-empty description list. -/
def isMatching (word : String) (r : AutoModRule) : Bool :=
  (r.trigger.type == AutoModRuleTriggerType.keyword) && !(descsOf word r).isEmpty

/-- A snapshot with two distinct keyword-typed rules sharing the name
`"X"`; only the first has a matching keyword. -/
def dupNameRules : List AutoModRule :=
  [⟨1, "X", ⟨AutoModRuleTriggerType.keyword, ["a"], []⟩⟩,
   ⟨2, "X", ⟨AutoModRuleTriggerType.keyword, [], []⟩⟩]

/-- C5: on any rule whose trigger kind is not `keyword`, both
`add_keyword` and `delete_keyword` fail with the wrong-trigger-type
reply, make no Rule Store call, and leave the rule (hence both trigger
sequences) unchanged — for every entry text, regex flag and remote
behaviour. -/
theorem C5_wrong_trigger_type_guard (rule : AutoModRule) (text : String) (regex : Bool)
    (remote : Option String) (h : rule.trigger.type ≠ AutoModRuleTriggerType.keyword) :
    (∃ m, add_keyword rule text regex remote =
        { outcome := .wrongTriggerType m, rule := rule, storeCalls := [] })
    ∧ (∃ m, delete_keyword rule text regex remote =
        { outcome := .wrongTriggerType m, rule := rule, storeCalls := [] }) :=
  ⟨⟨"This automod rule doesn't have a keyword filter.", by simp only [add_keyword, if_pos h]⟩,
   ⟨"This AutoMod rule doesn't have a keyword filter.", by simp only [delete_keyword, if_pos h]⟩⟩

/-- Witness for C5: a concrete spam-typed rule is rejected by both
commands with no store call. -/
theorem C5_wrong_trigger_type_guard_witness :
    (∃ m, add_keyword ⟨1, "R", ⟨AutoModRuleTriggerType.spam, [], []⟩⟩ "x" false none =
        { outcome := .wrongTriggerType m
          rule := ⟨1, "R", ⟨AutoModRuleTriggerType.spam, [], []⟩⟩, storeCalls := [] })
    ∧ (∃ m, delete_keyword ⟨1, "R", ⟨AutoModRuleTriggerType.spam, [], []⟩⟩ "x" false none =
        { outcome := .wrongTriggerType m
          rule := ⟨1, "R", ⟨AutoModRuleTriggerType.spam, [], []⟩⟩, storeCalls := [] }) :=
  C5_wrong_trigger_type_guard ⟨1, "R", ⟨AutoModRuleTriggerType.spam, [], []⟩⟩ "x" false none
    (by decide)

/-- C6: on a keyword-typed rule, adding a text already present in the
relevant sequence (regex patterns when the flag is set, literal keywords
otherwise; exact case-sensitive equality) replies duplicate-entry with no
store call and no mutation, and deleting an absent text replies
not-found, likewise with no store call and no mutation. -/
theorem C6_duplicate_and_absent_rejection (rule : AutoModRule) (text : String) (regex : Bool)
    (remote : Option String) (hkw : rule.trigger.type = AutoModRuleTriggerType.keyword) :
    (text ∈ (if regex then rule.trigger.regex_patterns else rule.trigger.keyword_filter) →
      ∃ m, add_keyword rule text regex remote =
        { outcome := .duplicateEntry m, rule := rule, storeCalls := [] })
    ∧ (text ∉ (if regex then rule.trigger.regex_patterns else rule.trigger.keyword_filter) →
      ∃ m, delete_keyword rule text regex remote =
        { outcome := .entryNotFound m, rule := rule, storeCalls := [] }) := by
  cases regex with
  | false =>
    refine ⟨fun hmem => ⟨"This keyword is already in the filter.", ?_⟩,
            fun hmem => ⟨"This keyword is not in the filter.", ?_⟩⟩
    · simp only [Bool.false_eq_true, if_false] at hmem
      simp [add_keyword, hkw, hmem]
    · simp only [Bool.false_eq_true, if_false] at hmem
      simp [delete_keyword, hkw, hmem]
  | true =>
    refine ⟨fun hmem => ⟨"This regex expression is already in the filter.", ?_⟩,
            fun hmem => ⟨"This regex expression is not in the filter.", ?_⟩⟩
    · simp only [if_true] at hmem
      simp [add_keyword, hkw, hmem]
    · simp only [if_true] at hmem
      simp [delete_keyword, hkw, hmem]

/-- Witness for C6: with a concrete keyword rule holding `["free"]`,
adding `"free"` is rejected as a duplicate and deleting `"prize"` as not
found, both without store calls. -/
theorem C6_duplicate_and_absent_rejection_witness :
    ("free" ∈ (if false then
          (⟨1, "R", ⟨AutoModRuleTriggerType.keyword, ["free"], []⟩⟩ : AutoModRule).trigger.regex_patterns
        else
          (⟨1, "R", ⟨AutoModRuleTriggerType.keyword, ["free"], []⟩⟩ : AutoModRule).trigger.keyword_filter) →
      ∃ m, add_keyword ⟨1, "R", ⟨AutoModRuleTriggerType.keyword, ["free"], []⟩⟩ "free" false none =
        { outcome := .duplicateEntry m
          rule := ⟨1, "R", ⟨AutoModRuleTriggerType.keyword, ["free"], []⟩⟩, storeCalls := [] })
    ∧ ("free" ∉ (if false then
          (⟨1, "R", ⟨AutoModRuleTriggerType.keyword, ["free"], []⟩⟩ : AutoModRule).trigger.regex_patterns
        else
          (⟨1, "R", ⟨AutoModRuleTriggerType.keyword, ["free"], []⟩⟩ : AutoModRule).trigger.keyword_filter) →
      ∃ m, delete_keyword ⟨1, "R", ⟨AutoModRuleTriggerType.keyword, ["free"], []⟩⟩ "free" false none =
        { outcome := .entryNotFound m
          rule := ⟨1, "R", ⟨AutoModRuleTriggerType.keyword, ["free"], []⟩⟩, storeCalls := [] }) :=
  C6_duplicate_and_absent_rejection
    ⟨1, "R", ⟨AutoModRuleTriggerType.keyword, ["free"], []⟩⟩ "free" false none (by decide)

/-- C7: on a keyword-typed rule and an absent entry text, a successful
`add_keyword` followed by a successful `delete_keyword` of the same text
(same regex flag, store accepting both edits) restores the rule — so in
particular the relevant sequence — exactly, in content and order. -/
theorem C7_add_delete_roundtrip (rule : AutoModRule) (text : String) (regex : Bool)
    (hkw : rule.trigger.type = AutoModRuleTriggerType.keyword)
    (habs : text ∉ (if regex then rule.trigger.regex_patterns else rule.trigger.keyword_filter)) :
    (∃ m, (add_keyword rule text regex none).outcome = .success m)
    ∧ (∃ m, (delete_keyword (add_keyword rule text regex none).rule text regex none).outcome
        = .success m)
    ∧ (delete_keyword (add_keyword rule text regex none).rule text regex none).rule = rule := by
  cases regex with
  | false =>
    have habs1 : text ∉ rule.trigger.keyword_filter := by
      simpa using habs
    have herase : (rule.trigger.keyword_filter ++ [text]).erase text
        = rule.trigger.keyword_filter := by
      rw [List.erase_append_right _ habs1, List.erase_cons_head]
      simp
    refine ⟨⟨"Added keyword " ++ text ++ " to " ++ rule.name ++ " Automod rule succesfully.", ?_⟩,
            ⟨"Deleted keyword " ++ text ++ " from " ++ rule.name ++ " automod rule succesfully.", ?_⟩,
            ?_⟩ <;>
      simp [add_keyword, delete_keyword, hkw, habs1, herase]
    rw [← hkw]
  | true =>
    have habs1 : text ∉ rule.trigger.regex_patterns := by
      simpa using habs
    have herase : (rule.trigger.regex_patterns ++ [text]).erase text
        = rule.trigger.regex_patterns := by
      rw [List.erase_append_right _ habs1, List.erase_cons_head]
      simp
    refine ⟨⟨"Added keyword " ++ text ++ " to " ++ rule.name ++ " Automod rule succesfully.", ?_⟩,
            ⟨"Deleted keyword " ++ text ++ " from " ++ rule.name ++ " automod rule succesfully.", ?_⟩,
            ?_⟩ <;>
      simp [add_keyword, delete_keyword, hkw, habs1, herase]
    rw [← hkw]

/-- Witness for C7: adding then deleting `"prize"` on a rule holding
`["free"]` ends on the original rule. -/
theorem C7_add_delete_roundtrip_witness :
    (∃ m, (add_keyword ⟨1, "R", ⟨AutoModRuleTriggerType.keyword, ["free"], []⟩⟩ "prize" false
        none).outcome = .success m)
    ∧ (∃ m, (delete_keyword
        (add_keyword ⟨1, "R", ⟨AutoModRuleTriggerType.keyword, ["free"], []⟩⟩ "prize" false
          none).rule "prize" false none).outcome = .success m)
    ∧ (delete_keyword
        (add_keyword ⟨1, "R", ⟨AutoModRuleTriggerType.keyword, ["free"], []⟩⟩ "prize" false
          none).rule "prize" false none).rule
      = ⟨1, "R", ⟨AutoModRuleTriggerType.keyword, ["free"], []⟩⟩ :=
  C7_add_delete_roundtrip ⟨1, "R", ⟨AutoModRuleTriggerType.keyword, ["free"], []⟩⟩ "prize" false
    (by decide) (by decide)

/-- C9: when the relevant trigger sequence splits as `l₁ ++ text :: l₂`
with no occurrence of `text` in `l₁` (so the listed occurrence is the
first, and `l₂` may hold further duplicates), `delete_keyword` leaves the
sequence `l₁ ++ l₂`: exactly the first occurrence is removed, everything
else stays in place and in order, and the other sequence is untouched. -/
theorem C9_delete_first_occurrence (rule : AutoModRule) (text : String) (regex : Bool)
    (l₁ l₂ : List String) (hkw : rule.trigger.type = AutoModRuleTriggerType.keyword)
    (hsplit : (if regex then rule.trigger.regex_patterns else rule.trigger.keyword_filter)
      = l₁ ++ text :: l₂)
    (hfirst : text ∉ l₁) :
    (if regex then (delete_keyword rule text regex none).rule.trigger.regex_patterns
      else (delete_keyword rule text regex none).rule.trigger.keyword_filter) = l₁ ++ l₂
    ∧ (if regex then (delete_keyword rule text regex none).rule.trigger.keyword_filter
      else (delete_keyword rule text regex none).rule.trigger.regex_patterns)
      = (if regex then rule.trigger.keyword_filter else rule.trigger.regex_patterns) := by
  cases regex with
  | false =>
    have hs : rule.trigger.keyword_filter = l₁ ++ text :: l₂ := by simpa using hsplit
    have hmem : text ∈ rule.trigger.keyword_filter := by rw [hs]; simp
    have herase : rule.trigger.keyword_filter.erase text = l₁ ++ l₂ := by
      rw [hs, List.erase_append_right _ hfirst, List.erase_cons_head]
    simp [delete_keyword, hkw, hmem, herase]
  | true =>
    have hs : rule.trigger.regex_patterns = l₁ ++ text :: l₂ := by simpa using hsplit
    have hmem : text ∈ rule.trigger.regex_patterns := by rw [hs]; simp
    have herase : rule.trigger.regex_patterns.erase text = l₁ ++ l₂ := by
      rw [hs, List.erase_append_right _ hfirst, List.erase_cons_head]
    simp [delete_keyword, hkw, hmem, herase]

/-- Witness for C9: deleting `"a"` from `["a", "b", "a"]` leaves
`["b", "a"]` — the later duplicate survives. -/
theorem C9_delete_first_occurrence_witness :
    (if false then
        (delete_keyword ⟨1, "R", ⟨AutoModRuleTriggerType.keyword, ["a", "b", "a"], []⟩⟩ "a" false
          none).rule.trigger.regex_patterns
      else
        (delete_keyword ⟨1, "R", ⟨AutoModRuleTriggerType.keyword, ["a", "b", "a"], []⟩⟩ "a" false
          none).rule.trigger.keyword_filter) = [] ++ ["b", "a"]
    ∧ (if false then
        (delete_keyword ⟨1, "R", ⟨AutoModRuleTriggerType.keyword, ["a", "b", "a"], []⟩⟩ "a" false
          none).rule.trigger.keyword_filter
      else
        (delete_keyword ⟨1, "R", ⟨AutoModRuleTriggerType.keyword, ["a", "b", "a"], []⟩⟩ "a" false
          none).rule.trigger.regex_patterns)
      = (if false then
          (⟨1, "R", ⟨AutoModRuleTriggerType.keyword, ["a", "b", "a"], []⟩⟩ : AutoModRule).trigger.keyword_filter
        else
          (⟨1, "R", ⟨AutoModRuleTriggerType.keyword, ["a", "b", "a"], []⟩⟩ : AutoModRule).trigger.regex_patterns) :=
  C9_delete_first_occurrence ⟨1, "R", ⟨AutoModRuleTriggerType.keyword, ["a", "b", "a"], []⟩⟩ "a"
    false [] ["b", "a"] (by decide) (by decide) (by decide)

/-- C1 counterexample: on the keyword rule `⟨1, "Rule A", keyword,
["free"], []⟩`, adding `"prize"` with the store rejecting the edit does
fail with the remote-rejection reply, but the in-memory literal sequence
afterwards is `["free", "prize"]`, not the pre-call `["free"]`: the
appended entry is not discarded, contradicting the claimed rollback. -/
theorem C1_counterexample :
    (add_keyword ⟨1, "Rule A", ⟨AutoModRuleTriggerType.keyword, ["free"], []⟩⟩ "prize" false
        (some "400 Bad Request")).outcome
      = .remoteRejected "Failed to add keyword: 400 Bad Request."
    ∧ (add_keyword ⟨1, "Rule A", ⟨AutoModRuleTriggerType.keyword, ["free"], []⟩⟩ "prize" false
        (some "400 Bad Request")).rule.trigger.keyword_filter
      = ["free", "prize"]
    ∧ (["free", "prize"] : List String) ≠ ["free"] :=
  ⟨rfl, rfl, by decide⟩

/-- C1 (amended): on a keyword-typed rule, when the Rule Store rejects
the replace submission, `add_keyword` (on an absent text) and
`delete_keyword` (on a present text) fail with the remote-rejection
outcome carrying the remote detail, and the single rejected submission is
the only store interaction (so the remote state is unchanged); but the
in-memory relevant sequence keeps the local mutation — the appended tail
for add, the first-occurrence removal for delete — instead of being
restored to its pre-call content. -/
theorem C1_amended_remote_rejection (rule : AutoModRule) (text : String) (regex : Bool)
    (e : String) (hkw : rule.trigger.type = AutoModRuleTriggerType.keyword) :
    (text ∉ (if regex then rule.trigger.regex_patterns else rule.trigger.keyword_filter) →
      (add_keyword rule text regex (some e)).outcome
          = .remoteRejected ("Failed to add keyword: " ++ e ++ ".")
        ∧ (add_keyword rule text regex (some e)).storeCalls
          = [(add_keyword rule text regex (some e)).rule.trigger]
        ∧ (if regex then (add_keyword rule text regex (some e)).rule.trigger.regex_patterns
            else (add_keyword rule text regex (some e)).rule.trigger.keyword_filter)
          = (if regex then rule.trigger.regex_patterns else rule.trigger.keyword_filter) ++ [text])
    ∧ (text ∈ (if regex then rule.trigger.regex_patterns else rule.trigger.keyword_filter) →
      (delete_keyword rule text regex (some e)).outcome
          = .remoteRejected ("Failed to delete keyword: " ++ e ++ ".")
        ∧ (delete_keyword rule text regex (some e)).storeCalls
          = [(delete_keyword rule text regex (some e)).rule.trigger]
        ∧ (if regex then (delete_keyword rule text regex (some e)).rule.trigger.regex_patterns
            else (delete_keyword rule text regex (some e)).rule.trigger.keyword_filter)
          = (if regex then rule.trigger.regex_patterns
              else rule.trigger.keyword_filter).erase text) := by
  cases regex with
  | false =>
    refine ⟨fun habs => ?_, fun hmem => ?_⟩
    · have habs1 : text ∉ rule.trigger.keyword_filter := by simpa using habs
      simp [add_keyword, hkw, habs1]
    · have hmem1 : text ∈ rule.trigger.keyword_filter := by simpa using hmem
      simp [delete_keyword, hkw, hmem1]
  | true =>
    refine ⟨fun habs => ?_, fun hmem => ?_⟩
    · have habs1 : text ∉ rule.trigger.regex_patterns := by simpa using habs
      simp [add_keyword, hkw, habs1]
    · have hmem1 : text ∈ rule.trigger.regex_patterns := by simpa using hmem
      simp [delete_keyword, hkw, hmem1]

/-- Witness for the amended C1: the rejected add of `"prize"` on
`["free"]` reports the rejection, makes exactly the one rejected store
call, and leaves `["free", "prize"]` in memory; the rejected delete of
`"free"` symmetrically leaves `[]`. -/
theorem C1_amended_remote_rejection_witness :
    ("prize" ∉ (if false then
        (⟨1, "Rule A", ⟨AutoModRuleTriggerType.keyword, ["free"], []⟩⟩ : AutoModRule).trigger.regex_patterns
      else
        (⟨1, "Rule A", ⟨AutoModRuleTriggerType.keyword, ["free"], []⟩⟩ : AutoModRule).trigger.keyword_filter) →
      (add_keyword ⟨1, "Rule A", ⟨AutoModRuleTriggerType.keyword, ["free"], []⟩⟩ "prize" false
          (some "err")).outcome
        = .remoteRejected ("Failed to add keyword: " ++ "err" ++ ".")
      ∧ (add_keyword ⟨1, "Rule A", ⟨AutoModRuleTriggerType.keyword, ["free"], []⟩⟩ "prize" false
          (some "err")).storeCalls
        = [(add_keyword ⟨1, "Rule A", ⟨AutoModRuleTriggerType.keyword, ["free"], []⟩⟩ "prize" false
            (some "err")).rule.trigger]
      ∧ (if false then
            (add_keyword ⟨1, "Rule A", ⟨AutoModRuleTriggerType.keyword, ["free"], []⟩⟩ "prize" false
              (some "err")).rule.trigger.regex_patterns
          else
            (add_keyword ⟨1, "Rule A", ⟨AutoModRuleTriggerType.keyword, ["free"], []⟩⟩ "prize" false
              (some "err")).rule.trigger.keyword_filter)
        = (if false then
            (⟨1, "Rule A", ⟨AutoModRuleTriggerType.keyword, ["free"], []⟩⟩ : AutoModRule).trigger.regex_patterns
          else
            (⟨1, "Rule A", ⟨AutoModRuleTriggerType.keyword, ["free"], []⟩⟩ : AutoModRule).trigger.keyword_filter)
          ++ ["prize"])
    ∧ ("prize" ∈ (if false then
        (⟨1, "Rule A", ⟨AutoModRuleTriggerType.keyword, ["free"], []⟩⟩ : AutoModRule).trigger.regex_patterns
      else
        (⟨1, "Rule A", ⟨AutoModRuleTriggerType.keyword, ["free"], []⟩⟩ : AutoModRule).trigger.keyword_filter) →
      (delete_keyword ⟨1, "Rule A", ⟨AutoModRuleTriggerType.keyword, ["free"], []⟩⟩ "prize" false
          (some "err")).outcome
        = .remoteRejected ("Failed to delete keyword: " ++ "err" ++ ".")
      ∧ (delete_keyword ⟨1, "Rule A", ⟨AutoModRuleTriggerType.keyword, ["free"], []⟩⟩ "prize" false
          (some "err")).storeCalls
        = [(delete_keyword ⟨1, "Rule A", ⟨AutoModRuleTriggerType.keyword, ["free"], []⟩⟩ "prize"
            false (some "err")).rule.trigger]
      ∧ (if false then
            (delete_keyword ⟨1, "Rule A", ⟨AutoModRuleTriggerType.keyword, ["free"], []⟩⟩ "prize"
              false (some "err")).rule.trigger.regex_patterns
          else
            (delete_keyword ⟨1, "Rule A", ⟨AutoModRuleTriggerType.keyword, ["free"], []⟩⟩ "prize"
              false (some "err")).rule.trigger.keyword_filter)
        = (if false then
            (⟨1, "Rule A", ⟨AutoModRuleTriggerType.keyword, ["free"], []⟩⟩ : AutoModRule).trigger.regex_patterns
          else
            (⟨1, "Rule A", ⟨AutoModRuleTriggerType.keyword, ["free"], []⟩⟩ : AutoModRule).trigger.keyword_filter).erase
          "prize") :=
  C1_amended_remote_rejection ⟨1, "Rule A", ⟨AutoModRuleTriggerType.keyword, ["free"], []⟩⟩
    "prize" false "err" (by decide)

/-- The empty character list occurs in every character list. -/
theorem hasSubChars_nil (l : List Char) : hasSubChars [] l = true := by
  cases l <;> simp [hasSubChars, leadsChars]

/-- Python's `"" in s` is true for every string `s`. -/
theorem strIn_empty (s : String) : strIn "" s = true :=
  hasSubChars_nil s.toList

/-- C8: every suggestion of `rules_autocomplete` comes from a
keyword-typed rule of the snapshot whose name contains the partial input
as a case-sensitive substring; the output is exactly the in-order
filter-and-map of the snapshot; on the empty partial input the
suggestions are exactly the keyword-typed rules, in particular
equinumerous with them; and for every partial input the output is a
sublist of the snapshot rendered as choices, so snapshot order is
preserved. -/
theorem C8_autocomplete_filter (rules : List AutoModRule) (current : String) :
    (∀ c ∈ rules_autocomplete rules current,
      ∃ r, r ∈ rules ∧ r.trigger.type = AutoModRuleTriggerType.keyword
        ∧ strIn current r.name = true ∧ c = ⟨r.name, toString r.id⟩)
    ∧ rules_autocomplete rules current =
        (rules.filter fun r =>
            r.trigger.type == AutoModRuleTriggerType.keyword && strIn current r.name).map
          (fun r => ⟨r.name, toString r.id⟩)
    ∧ rules_autocomplete rules "" =
        (rules.filter fun r => r.trigger.type == AutoModRuleTriggerType.keyword).map
          (fun r => ⟨r.name, toString r.id⟩)
    ∧ (rules_autocomplete rules "").length
        = (rules.filter fun r => r.trigger.type == AutoModRuleTriggerType.keyword).length
    ∧ (rules_autocomplete rules current).Sublist
        (rules.map fun r => ⟨r.name, toString r.id⟩) := by
  have key : ∀ q : String, rules_autocomplete rules q =
      (rules.filter fun r =>
          r.trigger.type == AutoModRuleTriggerType.keyword && strIn q r.name).map
        (fun r => ⟨r.name, toString r.id⟩) := by
    intro q
    by_cases hq : q = ""
    · subst hq
      rw [rules_autocomplete, if_neg (by simp)]
      congr 1
      exact (List.filter_congr fun r _ => by simp [strIn_empty]).symm
    · rw [rules_autocomplete, if_pos hq]
  have empt : rules_autocomplete rules "" =
      (rules.filter fun r => r.trigger.type == AutoModRuleTriggerType.keyword).map
        (fun r => ⟨r.name, toString r.id⟩) := by
    rw [key ""]
    congr 1
    exact List.filter_congr fun r _ => by simp [strIn_empty]
  refine ⟨?_, key current, empt, ?_, ?_⟩
  · intro c hc
    rw [key current] at hc
    simp only [List.mem_map, List.mem_filter, Bool.and_eq_true, beq_iff_eq] at hc
    obtain ⟨r, ⟨hr, hty, hsub⟩, rfl⟩ := hc
    exact ⟨r, hr, hty, hsub, rfl⟩
  · rw [empt, List.length_map]
  · rw [key current]
    exact List.Sublist.map _ (List.filter_sublist rules)

/-- C3: the kick actuator is called if and only if the event's rule
resolves, the acting member resolves, and the resolved rule is named
`"Scams"`; in every other case the handler performs no side effect at
all — in particular no kick and no append to the action log. -/
theorem C3_reactor_gating (ruleRes : Option AutoModRule) (memberRes : Option Member)
    (actions : List String) (kickOk : Bool) :
    ((∃ mid reason, ReactorEvent.kickCall mid reason
        ∈ (on_automod_action ruleRes memberRes actions kickOk).trace)
      ↔ ∃ r m, ruleRes = some r ∧ memberRes = some m ∧ r.name = "Scams")
    ∧ ((¬ ∃ r m, ruleRes = some r ∧ memberRes = some m ∧ r.name = "Scams") →
        (on_automod_action ruleRes memberRes actions kickOk).trace = []
        ∧ (on_automod_action ruleRes memberRes actions kickOk).finalActions = actions) := by
  cases ruleRes with
  | none => simp [on_automod_action]
  | some r =>
    cases memberRes with
    | none => simp [on_automod_action]
    | some m =>
      by_cases hname : r.name = "Scams"
      · simp [on_automod_action, hname]
      · simp [on_automod_action, hname]

/-- C10: when the rule resolves to one named `"Scams"` and the member
resolves, the `"wk:<memberId>"` tag is appended to the action log
strictly before the kick call appears in the trace, and the tag is in the
final log whether the kick succeeds or fails (`raised` records a failing
kick propagating, with the append never rolled back). -/
theorem C10_log_append_precedes_kick (r : AutoModRule) (m : Member) (actions : List String)
    (kickOk : Bool) (hname : r.name = "Scams") :
    (∃ rest, (on_automod_action (some r) (some m) actions kickOk).trace
        = ReactorEvent.logAppend ("wk:" ++ toString m.id) :: rest
        ∧ ReactorEvent.kickCall m.id "Suspicious behavior" ∈ rest)
    ∧ ("wk:" ++ toString m.id) ∈ (on_automod_action (some r) (some m) actions kickOk).finalActions
    ∧ (on_automod_action (some r) (some m) actions kickOk).raised = !kickOk := by
  refine ⟨⟨[ReactorEvent.kickCall m.id "Suspicious behavior"], ?_, ?_⟩, ?_, ?_⟩ <;>
    simp [on_automod_action, hname]

/-- Witness for C10 at a concrete `"Scams"` rule, member 42 and a failing
kick: the tag is first in the trace and survives in the log. -/
theorem C10_log_append_precedes_kick_witness :
    (∃ rest, (on_automod_action
          (some ⟨5, "Scams", ⟨AutoModRuleTriggerType.keyword, ["win"], []⟩⟩) (some ⟨42⟩)
          ["old"] false).trace
        = ReactorEvent.logAppend ("wk:" ++ toString (42 : Nat)) :: rest
        ∧ ReactorEvent.kickCall 42 "Suspicious behavior" ∈ rest)
    ∧ ("wk:" ++ toString (42 : Nat)) ∈ (on_automod_action
        (some ⟨5, "Scams", ⟨AutoModRuleTriggerType.keyword, ["win"], []⟩⟩) (some ⟨42⟩)
        ["old"] false).finalActions
    ∧ (on_automod_action
        (some ⟨5, "Scams", ⟨AutoModRuleTriggerType.keyword, ["win"], []⟩⟩) (some ⟨42⟩)
        ["old"] false).raised = !false :=
  C10_log_append_precedes_kick ⟨5, "Scams", ⟨AutoModRuleTriggerType.keyword, ["win"], []⟩⟩
    ⟨42⟩ ["old"] false (by decide)

/-- The inner keyword loop adds one to the count per matching keyword,
whatever the dict holds. -/
theorem foldl_keywordStep_count (word k : String) (kws : List String) (s : SearchState) :
    (kws.foldl (keywordStep word k) s).count
      = s.count + (kws.filter fun kw => strIn word kw).length := by
  induction kws generalizing s with
  | nil => simp
  | cons kw rest ih =>
    by_cases hkw : strIn word kw = true <;>
      simp [keywordStep, hkw, ih, List.filter_cons]
    omega

/-- One outer loop iteration adds `matchCountOf` of the rule to the
count. -/
theorem searchStep_count (word : String) (st : SearchState) (rule : AutoModRule) :
    (searchStep word st rule).count = st.count + matchCountOf word rule := by
  by_cases hty : rule.trigger.type = AutoModRuleTriggerType.keyword
  · rw [searchStep, if_neg (by simp [hty])]
    rw [foldl_keywordStep_count]
    simp [matchCountOf, hty]
  · rw [searchStep, if_pos hty]
    simp [matchCountOf, hty]

/-- The count accumulated by the outer loop is the sum of the per-rule
match counts, independently of rule names. -/
theorem foldl_searchStep_count (word : String) (rules : List AutoModRule) (st : SearchState) :
    (rules.foldl (searchStep word) st).count
      = st.count + (rules.map (matchCountOf word)).sum := by
  induction rules generalizing st with
  | nil => simp
  | cons r rest ih =>
    rw [List.foldl_cons, ih, searchStep_count]
    simp [Nat.add_assoc]

/-- C4: the total reported by the search is the number of literal
keywords containing the query as a case-sensitive substring, summed over
keyword-typed rules only; with the empty query every literal keyword of
every keyword-typed rule is counted; and erasing every regex pattern from
the snapshot never changes the count (regex entries contribute
nothing). -/
theorem C4_search_count (rules : List AutoModRule) (word : String) :
    (searchState rules word).count = (rules.map (matchCountOf word)).sum
    ∧ (searchState rules "").count
      = (rules.map fun r => if r.trigger.type = AutoModRuleTriggerType.keyword
          then r.trigger.keyword_filter.length else 0).sum
    ∧ (searchState (rules.map fun r =>
          { r with trigger := { r.trigger with regex_patterns := [] } }) word).count
      = (searchState rules word).count := by
  have base : ∀ (rs : List AutoModRule) (w : String),
      (searchState rs w).count = (rs.map (matchCountOf w)).sum := fun rs w => by
    rw [searchState, foldl_searchStep_count]
    simp
  refine ⟨base rules word, ?_, ?_⟩
  · rw [base]
    congr 1
    refine List.map_congr_left fun r _ => ?_
    have hall : (r.trigger.keyword_filter.filter fun kw => strIn "" kw)
        = r.trigger.keyword_filter :=
      List.filter_eq_self.mpr fun a _ => strIn_empty a
    rw [matchCountOf, hall]
  · rw [base, base]
    congr 1
    rw [List.map_map]
    refine List.map_congr_left fun r _ => ?_
    simp [matchCountOf, Function.comp]

/-- Setting a key absent from the dict appends a fresh entry at the
end. -/
theorem dictSet_fresh (k : String) (v : List String) (m : List (String × List String))
    (h : k ∉ m.map Prod.fst) : dictSet m k v = m ++ [(k, v)] := by
  induction m with
  | nil => rfl
  | cons p rest ih =>
    obtain ⟨k0, v0⟩ := p
    simp only [List.map_cons, List.mem_cons, not_or] at h
    have hne : (k0 == k) = false := beq_eq_false_iff_ne.mpr fun e => h.1 e.symm
    simp [dictSet, hne, ih h.2]

/-- Pushing onto the value of the last entry, whose key occurs nowhere
earlier, rewrites only that entry. -/
theorem dictPush_last (k x : String) (v : List String) (m : List (String × List String))
    (h : k ∉ m.map Prod.fst) :
    dictPush (m ++ [(k, v)]) k x = m ++ [(k, v ++ [x])] := by
  rw [dictPush, List.map_append]
  congr 1
  · have : List.map (fun p => if p.1 == k then (p.1, p.2 ++ [x]) else p) m = List.map id m := by
      refine List.map_congr_left fun p hp => ?_
      have hne : (p.1 == k) = false := by
        refine beq_eq_false_iff_ne.mpr fun e => h ?_
        rw [← e]
        exact List.mem_map_of_mem Prod.fst hp
      simp [hne]
    rw [this, List.map_id]
  · simp

/-- The inner keyword loop, run while the rule's entry is last in the
dict and its key is fresh elsewhere, extends exactly that entry with the
match descriptions and bumps the count per match. -/
theorem foldl_keywordStep_matchMap (word k : String) (kws : List String)
    (m : List (String × List String)) (hk : k ∉ m.map Prod.fst) (v : List String) (c : Nat) :
    kws.foldl (keywordStep word k) ⟨m ++ [(k, v)], c⟩
      = ⟨m ++ [(k, v ++ (kws.filter fun kw => strIn word kw).map
            fun kw => kw ++ " contains " ++ word)],
         c + (kws.filter fun kw => strIn word kw).length⟩ := by
  induction kws generalizing v c with
  | nil => simp
  | cons kw rest ih =>
    by_cases hkw : strIn word kw = true
    · rw [List.foldl_cons]
      have hstep : keywordStep word k ⟨m ++ [(k, v)], c⟩ kw
          = ⟨m ++ [(k, v ++ [kw ++ " contains " ++ word])], c + 1⟩ := by
        simp [keywordStep, hkw, dictPush_last _ _ _ _ hk]
      rw [hstep, ih]
      simp only [List.filter_cons, hkw, if_true, List.map_cons, List.length_cons,
        SearchState.mk.injEq, List.append_assoc, List.singleton_append]
      exact ⟨trivial, by omega⟩
    · rw [List.foldl_cons]
      have hstep : keywordStep word k ⟨m ++ [(k, v)], c⟩ kw = ⟨m ++ [(k, v)], c⟩ := by
        simp [keywordStep, hkw]
      rw [hstep, ih]
      simp [List.filter_cons, hkw]

/-- One outer loop iteration on a keyword-typed rule whose name is fresh
in the dict appends that rule's entry. -/
theorem searchStep_fresh (word : String) (rule : AutoModRule)
    (m : List (String × List String)) (c : Nat)
    (hty : rule.trigger.type = AutoModRuleTriggerType.keyword)
    (hk : rule.name ∉ m.map Prod.fst) :
    searchStep word ⟨m, c⟩ rule
      = ⟨m ++ [(rule.name, descsOf word rule)], c + matchCountOf word rule⟩ := by
  rw [searchStep, if_neg (by simp [hty])]
  have hinit : ({ (⟨m, c⟩ : SearchState) with
      matchMap := dictSet (⟨m, c⟩ : SearchState).matchMap rule.name [] } : SearchState)
      = ⟨m ++ [(rule.name, [])], c⟩ := by
    simp [dictSet_fresh _ _ _ hk]
  rw [hinit, foldl_keywordStep_matchMap word rule.name _ m hk [] c]
  simp [descsOf, matchCountOf, hty]

/-- `matchesOf` over a keyword-typed head rule puts that rule's entry
first. -/
theorem matchesOf_cons_pos (word : String) (r : AutoModRule) (rest : List AutoModRule)
    (hty : r.trigger.type = AutoModRuleTriggerType.keyword) :
    matchesOf word (r :: rest) = (r.name, descsOf word r) :: matchesOf word rest := by
  rw [matchesOf, List.filter_cons_of_pos (by simp [hty]), List.map_cons, matchesOf]

/-- `matchesOf` skips a non-keyword head rule. -/
theorem matchesOf_cons_neg (word : String) (r : AutoModRule) (rest : List AutoModRule)
    (hty : ¬ r.trigger.type = AutoModRuleTriggerType.keyword) :
    matchesOf word (r :: rest) = matchesOf word rest := by
  rw [matchesOf, List.filter_cons_of_neg (by simp [hty]), matchesOf]

/-- The outer loop over rules with pairwise-distinct keyword-rule names,
started from a dict whose keys avoid those names, appends one entry per
keyword-typed rule in snapshot order. -/
theorem foldl_searchStep_matchMap (word : String) (rules : List AutoModRule) :
    ∀ (m : List (String × List String)) (c : Nat),
    (∀ r ∈ rules, r.trigger.type = AutoModRuleTriggerType.keyword → r.name ∉ m.map Prod.fst) →
    ((rules.filter fun r => r.trigger.type == AutoModRuleTriggerType.keyword).map
        (fun r => r.name)).Nodup →
    rules.foldl (searchStep word) ⟨m, c⟩
      = ⟨m ++ matchesOf word rules, c + (rules.map (matchCountOf word)).sum⟩ := by
  induction rules with
  | nil => intro m c _ _; simp [matchesOf]
  | cons r rest ih =>
    intro m c hfresh hnodup
    by_cases hty : r.trigger.type = AutoModRuleTriggerType.keyword
    · have hnodup' : ((rest.filter fun x =>
          x.trigger.type == AutoModRuleTriggerType.keyword).map (fun x => x.name)).Nodup := by
        rw [List.filter_cons_of_pos (by simp [hty]), List.map_cons] at hnodup
        exact hnodup.of_cons
      have hhead : r.name ∉ ((rest.filter fun x =>
          x.trigger.type == AutoModRuleTriggerType.keyword).map (fun x => x.name)) := by
        rw [List.filter_cons_of_pos (by simp [hty]), List.map_cons] at hnodup
        exact (List.nodup_cons.mp hnodup).1
      have hfresh' : ∀ x ∈ rest, x.trigger.type = AutoModRuleTriggerType.keyword →
          x.name ∉ (m ++ [(r.name, descsOf word r)]).map Prod.fst := by
        intro x hx htyx
        simp only [List.map_append, List.mem_append, List.map_cons, List.map_nil,
          List.mem_singleton, not_or]
        refine ⟨hfresh x (List.mem_cons_of_mem r hx) htyx, fun e => hhead ?_⟩
        rw [← e]
        refine List.mem_map_of_mem (fun y => y.name) (List.mem_filter.mpr ⟨hx, ?_⟩)
        exact beq_iff_eq.mpr htyx
      rw [List.foldl_cons, searchStep_fresh word r m c hty (hfresh r (by simp) hty),
        ih (m ++ [(r.name, descsOf word r)]) (c + matchCountOf word r) hfresh' hnodup',
        matchesOf_cons_pos word r rest hty, List.map_cons, List.sum_cons]
      simp [List.append_assoc, Nat.add_assoc]
    · have hstep : searchStep word (⟨m, c⟩ : SearchState) r = ⟨m, c⟩ := by
        rw [searchStep, if_pos hty]
      have hnodup' : ((rest.filter fun x =>
          x.trigger.type == AutoModRuleTriggerType.keyword).map (fun x => x.name)).Nodup := by
        rwa [List.filter_cons_of_neg (by simp [hty])] at hnodup
      have hmc : matchCountOf word r = 0 := by simp [matchCountOf, hty]
      rw [List.foldl_cons, hstep,
        ih m c (fun x hx htyx => hfresh x (List.mem_cons_of_mem r hx) htyx) hnodup',
        matchesOf_cons_neg word r rest hty, List.map_cons, List.sum_cons, hmc]
      simp

/-- With pairwise-distinct keyword-rule names the final search state is
the per-rule dict together with the summed count. -/
theorem searchState_eq (rules : List AutoModRule) (word : String)
    (hnodup : ((rules.filter fun r => r.trigger.type == AutoModRuleTriggerType.keyword).map
        (fun r => r.name)).Nodup) :
    searchState rules word = ⟨matchesOf word rules, (rules.map (matchCountOf word)).sum⟩ := by
  rw [searchState, foldl_searchStep_matchMap word rules [] 0 (by simp) hnodup]
  simp

/-- The overwriting render loop keeps only the block of the last entry
with a non-empty match list (or the initial text when there is none). -/
theorem foldl_renderLoop (l : List (String × List String)) : ∀ t : String,
    l.foldl
      (fun text p =>
        if p.2.isEmpty then text
        else "Rule " ++ p.1 ++ ":\n  " ++ String.intercalate "  \n" p.2) t
    = (((l.filter fun p => !p.2.isEmpty).getLast?).map
        (fun p => "Rule " ++ p.1 ++ ":\n  " ++ String.intercalate "  \n" p.2)).getD t := by
  induction l with
  | nil => intro t; rfl
  | cons p rest ih =>
    intro t
    by_cases hp : p.2.isEmpty = true
    · rw [List.foldl_cons, List.filter_cons_of_neg (by simp [hp])]
      simp only [hp, if_true]
      exact ih t
    · rw [List.foldl_cons, List.filter_cons_of_pos (by simp [hp])]
      simp only [hp, if_false, Bool.false_eq_true]
      rw [ih]
      cases hfe : (rest.filter fun q => !q.2.isEmpty) with
      | nil => simp
      | cons q qs =>
        obtain ⟨x, hx⟩ := Option.isSome_iff_exists.mp
          (List.getLast?_isSome.mpr (List.cons_ne_nil q qs))
        simp [List.getLast?_cons_cons, hx]

/-- `renderText` emits exactly the block of the last entry holding a
non-empty match list, and the empty string when there is none. -/
theorem renderText_eq (m : List (String × List String)) :
    renderText m
      = (((m.filter fun p => !p.2.isEmpty).getLast?).map
          (fun p => "Rule " ++ p.1 ++ ":\n  " ++ String.intercalate "  \n" p.2)).getD "" := by
  rw [renderText]
  exact foldl_renderLoop m ""

/-- The entries of the per-rule dict carrying at least one match are those
of the matching rules, in order. -/
theorem matchesOf_filter (word : String) (rules : List AutoModRule) :
    (matchesOf word rules).filter (fun p => !p.2.isEmpty)
      = (rules.filter (isMatching word)).map fun r => (r.name, descsOf word r) := by
  rw [matchesOf, List.filter_map]
  congr 1
  rw [List.filter_filter]
  refine List.filter_congr fun r _ => ?_
  rw [isMatching]
  exact Bool.and_comm _ _

/-- C2 (amended): for a snapshot whose rule names are pairwise distinct
and a non-empty query with a matching rule, the human-readable output of
`search_keyword` is exactly the rendered block of the last matching rule
in snapshot order — the matches of every earlier matching rule are
dropped — while the reported count still sums the matches of all
rules. -/
theorem C2_amended_last_matching_rule (rules : List AutoModRule) (word : String)
    (r : AutoModRule)
    (hkwnodup : ((rules.filter fun rl =>
      rl.trigger.type == AutoModRuleTriggerType.keyword).map (fun rl => rl.name)).Nodup)
    (_hword : word ≠ "")
    (hlast : (rules.filter (isMatching word)).getLast? = some r) :
    search_keyword rules word
      = .found ((rules.map (matchCountOf word)).sum)
          ("Rule " ++ r.name ++ ":\n  " ++ String.intercalate "  \n" (descsOf word r)) := by
  have hstate := searchState_eq rules word hkwnodup
  have hrmem : r ∈ rules.filter (isMatching word) := List.mem_of_getLast?_eq_some hlast
  have hrmatch : isMatching word r = true := (List.mem_filter.mp hrmem).2
  have hrrules : r ∈ rules := (List.mem_filter.mp hrmem).1
  have hpos : 0 < matchCountOf word r := by
    rw [isMatching, Bool.and_eq_true, beq_iff_eq] at hrmatch
    have hne : descsOf word r ≠ [] := by
      simpa using hrmatch.2
    have hlen : 0 < (descsOf word r).length := List.length_pos.mpr hne
    rw [descsOf, List.length_map] at hlen
    rw [matchCountOf, if_pos hrmatch.1]
    exact hlen
  have hsum : 0 < (rules.map (matchCountOf word)).sum :=
    lt_of_lt_of_le hpos (List.le_sum_of_mem (List.mem_map_of_mem (matchCountOf word) hrrules))
  rw [search_keyword, hstate]
  rw [if_neg (by simpa using hsum.ne')]
  rw [renderText_eq, matchesOf_filter, List.getLast?_map, hlast]
  rfl

/-- Witness for the amended C2 on the two-rule snapshot `Scams` /
`Spam` with query `"i"`: only the `Scams` block is emitted and the count
is the total over both rules. -/
theorem C2_amended_last_matching_rule_witness :
    search_keyword
        [⟨1, "Scams", ⟨AutoModRuleTriggerType.keyword, ["win", "prize"], []⟩⟩,
         ⟨2, "Spam", ⟨AutoModRuleTriggerType.keyword, ["buy"], []⟩⟩] "i"
      = .found
          (([⟨1, "Scams", ⟨AutoModRuleTriggerType.keyword, ["win", "prize"], []⟩⟩,
             ⟨2, "Spam", ⟨AutoModRuleTriggerType.keyword, ["buy"], []⟩⟩].map
              (matchCountOf "i")).sum)
          ("Rule "
            ++ (⟨1, "Scams", ⟨AutoModRuleTriggerType.keyword, ["win", "prize"], []⟩⟩ :
                AutoModRule).name
            ++ ":\n  "
            ++ String.intercalate "  \n"
              (descsOf "i"
                ⟨1, "Scams", ⟨AutoModRuleTriggerType.keyword, ["win", "prize"], []⟩⟩)) :=
  C2_amended_last_matching_rule
    [⟨1, "Scams", ⟨AutoModRuleTriggerType.keyword, ["win", "prize"], []⟩⟩,
     ⟨2, "Spam", ⟨AutoModRuleTriggerType.keyword, ["buy"], []⟩⟩] "i"
    ⟨1, "Scams", ⟨AutoModRuleTriggerType.keyword, ["win", "prize"], []⟩⟩
    (by decide) (by decide) (by decide)

/-- C2 counterexample: on `dupNameRules` (two keyword rules both named
`"X"`, only the first matching `"a"`) the count is 1 — so the claim's
"at least one match" premise holds — yet the emitted text is empty: the
match description of the last matching rule (the first rule, with
description `"a contains a"`) does not appear, because the second rule's
dict reset under the shared name discarded it.  The claimed "match
descriptions for exactly one rule: the last rule having at least one
matching literal keyword" is therefore false on this snapshot. -/
theorem C2_counterexample :
    (dupNameRules.filter (isMatching "a")).getLast?
      = some ⟨1, "X", ⟨AutoModRuleTriggerType.keyword, ["a"], []⟩⟩
    ∧ descsOf "a" ⟨1, "X", ⟨AutoModRuleTriggerType.keyword, ["a"], []⟩⟩ = ["a contains a"]
    ∧ search_keyword dupNameRules "a" = .found 1 ""
    ∧ strIn "a contains a" "" = false :=
  ⟨rfl, rfl, rfl, rfl⟩

end Kurisu
